import Mathlib

/-!
Verification of the rust-shell-script code-generation backend
(`src/rust_backend.rs`): a shallow embedding of the emitter functions
(`gen_code`, `visit_def_fun`, `visit_def_cmd`, `visit_stmt`,
`visit_call_cmd`, `visit_call`, `visit_return`, `visit_def_var`,
`visit_expr`, `format_str`) as pure Lean functions producing the lines
of the generated artifact, together with theorems about the emission.
-/

namespace RustBackend

/-- Modelled from the spec: the parser's expression type (the parser module
is not part of the backend source).  Tagged variant over numeric literal,
string literal, variable reference, routine invocation, and an explicit
unsupported-construct case; the unsupported case carries the deterministic
text that the source's derived structural formatter would print for it
(a variant name and its payload). -/
inductive Expr where
  | LitNum (n : Int)
  | LitStr (s : String)
  | Var (identifier : String)
  | CallFun (f : String) (args : List Expr)
  | Unsupported (name : String) (payload : String)

/-- Modelled from the spec: the parser's statement type.  Tagged variant over
define-routine, define-command-routine, define-variable, call-command,
return, and an explicit unsupported-construct case. -/
inductive Stmt where
  | DefFun (name : String) (params : List String) (body : List Stmt)
  | DefCmd (name : String) (params : List String) (body : List Stmt)
  | DefVar (name : String) (vdef : Option Expr)
  | CallCmd (cmd : String) (args : List Expr)
  | Return (e : Expr)
  | Unsupported (name : String) (payload : String)

/-- `const INDENT: isize = 4;` -/
def INDENT : Int := 4

/-- The indentation prefix written by the `output!` macro:
`(0..indent).map(|_| " ").collect::<String>()` (empty for a non-positive
count, one space per unit otherwise). -/
def indentStr (n : Int) : String := String.mk (List.replicate n.toNat ' ')

mutual

/-- The character scan of `format_str`: walks the input; on `'$'` immediately
followed by `'{'` it hands over to `scanMarker`; every other character is
copied verbatim.  Returns the template characters and the extracted
identifiers in order. -/
def scanFmt : List Char → List Char × List (List Char)
  | [] => ([], [])
  | [c] => ([c], [])
  | c :: d :: rest =>
    if c = '$' ∧ d = '{' then
      let m := scanMarker rest
      ('{' :: '}' :: m.2.1, m.1 :: m.2.2)
    else
      let q := scanFmt (d :: rest)
      (c :: q.1, q.2)

/-- The inner while-loop of `format_str`: consumes characters of the current
identifier until the closing brace (which is consumed and not kept), or until
the end of input; afterwards the outer scan resumes.  Returns the identifier
together with the scan of the remainder. -/
def scanMarker : List Char → List Char × (List Char × List (List Char))
  | [] => ([], ([], []))
  | v :: rest =>
    if v = '}' then ([], scanFmt rest)
    else
      let m := scanMarker rest
      (v :: m.1, m.2)
end

/-- `fn format_str(input: &str) -> String`: replace every `$`-brace marker by
a positional placeholder and append the extracted identifiers, each preceded
by a comma and a space. -/
def format_str (input : String) : String :=
  let p := scanFmt input.data
  p.2.foldl (fun acc v => acc ++ ", " ++ String.mk v) (String.mk p.1)


mutual

/-- `fn visit_expr(expr: &Expr) -> String`: numeric literal zero renders as
`Ok(())`, any other numeric literal as `Err(())`; a string literal is quoted
verbatim; a variable reference is quoted in marker-brace syntax; a routine
invocation renders callee, parenthesised argument join, and `?;`; everything
else falls back to the derived structural formatter (the text the
`Unsupported` constructor carries, in variant-name-parenthesised-payload
form). -/
def visit_expr : Expr → String
  | .LitNum n => if n = 0 then "Ok(())" else "Err(())"
  | .LitStr s => "\"" ++ s ++ "\""
  | .Var v => "\"$\x7b" ++ v ++ "\x7d\""
  | .CallFun f args => f ++ "(" ++ format_str (visit_args args) ++ ")?;"
  | .Unsupported name payload => name ++ "(" ++ payload ++ ")"

/-- The argument loop of `fn visit_call`: renders each argument with
`visit_expr` and joins them with single spaces. -/
def visit_args : List Expr → String
  | [] => ""
  | [e] => visit_expr e
  | e :: rest => visit_expr e ++ " " ++ visit_args rest
end

/-- `fn visit_call(parameters: &Vec<Expr>) -> String`: space-join the rendered
arguments and pass the whole joined string through `format_str`. -/
def visit_call (parameters : List Expr) : String :=
  format_str (visit_args parameters)

/-- Modelled from the spec: the derived structural formatter used by the
statement fallback (`format!` with the debug specifier on the missing parser
type); rendered as a deterministic structural dump.  Only statement kinds
that reach the fallback arm of `visit_stmt` matter. -/
def debugStmt : Stmt → String
  | .DefFun n _ _ => "DefFun(\"" ++ n ++ "\", ..)"
  | .DefCmd n _ _ => "DefCmd(\"" ++ n ++ "\", ..)"
  | .Unsupported name payload => name ++ "(" ++ payload ++ ")"
  | _ => ""

/-- `fn visit_call_cmd`: compute the statement ending from the original name
and the position, append `!` to a builtin name, then emit either a
macro/function style call (builtin or Symbol Set member) or a `run_cmd!`
external invocation, with the zero-argument form special-cased. -/
def visit_call_cmd (sym_table : List String) (indent : Int) (cmd : String)
    (parameters : List Expr) (is_last : Bool) : String :=
  let ending := if !is_last then (if cmd = "info" then ";" else "?;") else ""
  let builtin := cmd = "info" ∨ cmd = "output"
  let cmd := if cmd = "info" ∨ cmd = "output" then cmd ++ "!" else cmd
  if builtin ∨ sym_table.contains cmd then
    if parameters.length = 0 then
      indentStr indent ++ cmd ++ "()" ++ ending
    else
      indentStr indent ++ cmd ++ "(" ++ visit_call parameters ++ ")" ++ ending
  else
    if parameters.length = 0 then
      indentStr indent ++ "run_cmd!(\"" ++ cmd ++ "\")" ++ ending
    else
      indentStr indent ++ "run_cmd!(\"" ++ cmd ++ " " ++ visit_call parameters ++ "\")" ++ ending

/-- `fn visit_return`: the `return` keyword applied to the rendered operand. -/
def visit_return (indent : Int) (expr : Expr) : String :=
  indentStr indent ++ "return " ++ visit_expr expr

/-- `fn visit_def_var`: a `let` binding of the rendered initializer, or of
`String::new()` when there is none. -/
def visit_def_var (indent : Int) (var_name : String) (var_def : Option Expr) : String :=
  match var_def with
  | some expr => indentStr indent ++ "let " ++ var_name ++ " = " ++ visit_expr expr ++ ";"
  | none => indentStr indent ++ "let " ++ var_name ++ " = String::new();"

/-- `fn visit_stmt`: dispatch on the statement kind; the fallback arm prints
the structural dump and appends `?` exactly when the statement is not the
last of its body. -/
def visit_stmt (sym_table : List String) (indent : Int) (stmt : Stmt) (is_last : Bool) : String :=
  match stmt with
  | .CallCmd cmd parameters => visit_call_cmd sym_table indent cmd parameters is_last
  | .Return expr => visit_return indent expr
  | .DefVar var_name var_def => visit_def_var indent var_name var_def
  | s =>
    let t := debugStmt s
    let t := if !is_last then t ++ "?" else t
    indentStr indent ++ t

/-- The body loop shared by `visit_def_fun` and `visit_def_cmd`: each
statement is emitted with the flag `i == body.len() - 1`. -/
def visit_body (sym_table : List String) (indent : Int) (body : List Stmt) : List String :=
  body.enum.map (fun p => visit_stmt sym_table indent p.2 (p.1 = body.length - 1))

/-- The parameter-list loop of the routine emitters: parameters joined with
a comma and a space, each typed `: &str`. -/
def fun_params : List String → String
  | [] => ""
  | [p] => p ++ ": &str"
  | p :: rest => p ++ ": &str, " ++ fun_params rest

/-- `fn visit_def_fun`: signature line with `FunResult` return type, the body
at one indentation step, a closing brace line, and a blank separator line. -/
def visit_def_fun (sym_table : List String) (fun_name : String)
    (parameters : List String) (body : List Stmt) : List String :=
  ("fn " ++ fun_name ++ "(" ++ fun_params parameters ++ ") -> FunResult \x7b")
    :: visit_body sym_table (0 + INDENT) body ++ ["\x7d", ""]

/-- `fn visit_def_cmd`: identical shape to `visit_def_fun` except that the
signature line names the `CmdResult` return type. -/
def visit_def_cmd (sym_table : List String) (fun_name : String)
    (parameters : List String) (body : List Stmt) : List String :=
  ("fn " ++ fun_name ++ "(" ++ fun_params parameters ++ ") -> CmdResult \x7b")
    :: visit_body sym_table (0 + INDENT) body ++ ["\x7d", ""]

/-- The per-declaration dispatch of `gen_code`: only the two routine
definition kinds produce artifact text; anything else is reported on the
diagnostic stream and contributes nothing. -/
def gen_top (sym_table : List String) : Stmt → List String
  | .DefFun fun_name parameters body => visit_def_fun sym_table fun_name parameters body
  | .DefCmd cmd_name parameters body => visit_def_cmd sym_table cmd_name parameters body
  | _ => []

/-- The top-level loop of `gen_code` over the declaration list. -/
def gen_body (sym_table : List String) : List Stmt → List String
  | [] => []
  | s :: rest => gen_top sym_table s ++ gen_body sym_table rest

/-- `fn gen_code(stmts: &Vec<Stmt>, sym_table: &HashSet<&String>, file: &str)`:
the lines written to the output artifact — a fixed header comment, two
prelude lines, a blank line, then each handled top-level declaration in
order. -/
def gen_code (stmts : List Stmt) (sym_table : List String) : List String :=
  ["// Generated by rust-shell-script",
   "mod cmd_lib;",
   "use crate::cmd_lib::\x7bCmdResult, FunResult\x7d;",
   ""]
  ++ gen_body sym_table stmts

/-- Whether a string ends in the given character (the last character of its
character list is that character). -/
def endsWithChar (s : String) (c : Char) : Bool :=
  s.data.getLast? == some c

/-- The marker occurrence test of the spec: some `'$'` immediately followed
by `'{'`. -/
def hasMarker : List Char → Bool
  | [] => false
  | c :: rest => if c = '$' ∧ rest.head? = some '{' then true else hasMarker rest

mutual

/-- Whether the scanner consumes this input completely, ending outside of any
marker: every marker that the scan enters is terminated by a closing brace.
A prefix with this property is scanned the same way standalone and in front
of further input that starts with the marker character. -/
def closedScan : List Char → Bool
  | [] => true
  | [_] => true
  | c :: d :: rest =>
    if c = '$' ∧ d = '{' then closedMarker rest
    else closedScan (d :: rest)

/-- Whether, starting inside a marker, the scanner finds the closing brace
of the current marker and then consumes the rest of the input completely. -/
def closedMarker : List Char → Bool
  | [] => false
  | v :: rest => if v = '}' then closedScan rest else closedMarker rest
end

/-- The statement-position suffix policy of `visit_stmt`/`visit_call_cmd`:
nothing in trailing position; for a non-last call-command `;` for the
diagnostic builtin and `?;` otherwise; nothing for return and
define-variable; `?` for the fallback kinds when not last. -/
def stmtSuffix : Stmt → Bool → String
  | .CallCmd cmd _, is_last => if !is_last then (if cmd = "info" then ";" else "?;") else ""
  | .Return _, _ => ""
  | .DefVar _ _, _ => ""
  | _, is_last => if !is_last then "?" else ""


/-- The last character of an appended string with non-empty second part is
the last character of the second part. -/
theorem endsWithChar_append (s t : String) (c : Char) (h : t.data ≠ []) :
    endsWithChar (s ++ t) c = (t.data.getLast? == some c) := by
  simp [endsWithChar, String.data_append, List.getLast?_append_of_ne_nil _ h]

/-- C1: every statement rendering decomposes as the trailing-position
rendering followed by a position suffix; the suffix in trailing position is
empty for every statement kind, for the diagnostic builtin `info` it never
contains the propagate-on-failure character in any position, while a non-last
call-command with any other name (`output` included) receives `?;`; and the
line emitted for the last statement of a body is exactly the trailing-position
rendering. -/
theorem c1_trailing_suffix_policy :
    (∀ sym_table ind stmt last,
      visit_stmt sym_table ind stmt last
        = visit_stmt sym_table ind stmt true ++ stmtSuffix stmt last)
    ∧ (∀ stmt, stmtSuffix stmt true = "")
    ∧ (∀ args last, '?' ∉ (stmtSuffix (Stmt.CallCmd "info" args) last).data)
    ∧ (∀ cmd args, cmd ≠ "info" → stmtSuffix (Stmt.CallCmd cmd args) false = "?;")
    ∧ (∀ sym_table ind body stmt,
      (visit_body sym_table ind (body ++ [stmt])).getLast?
        = some (visit_stmt sym_table ind stmt true)) := by
  refine ⟨?_, ?_, ?_, ?_, ?_⟩
  · intro sym_table ind stmt last
    cases stmt with
    | CallCmd cmd parameters =>
        cases last with
        | true => simp [stmtSuffix, String.append_empty]
        | false =>
            simp only [visit_stmt, visit_call_cmd, stmtSuffix, Bool.not_true, Bool.not_false,
              if_true, if_false]
            split_ifs <;> simp_all [String.append_assoc, String.append_empty]
    | Return e => cases last <;> simp [visit_stmt, stmtSuffix, String.append_empty]
    | DefVar n d => cases last <;> simp [visit_stmt, stmtSuffix, String.append_empty]
    | DefFun n p b =>
        cases last <;> simp [visit_stmt, stmtSuffix, String.append_empty, String.append_assoc]
    | DefCmd n p b =>
        cases last <;> simp [visit_stmt, stmtSuffix, String.append_empty, String.append_assoc]
    | Unsupported n p =>
        cases last <;> simp [visit_stmt, stmtSuffix, String.append_empty, String.append_assoc]
  · intro stmt
    cases stmt <;> simp [stmtSuffix]
  · intro args last
    cases last <;> simp [stmtSuffix]
  · intro cmd args h
    simp [stmtSuffix, h]
  · intro sym_table ind body stmt
    simp [visit_body, List.enum_append, List.enumFrom]

/-- C1 witness: concrete instances of the suffix policy — a non-last external
call receives `?;`, decomposition holds at a concrete statement, and the last
statement of a concrete two-statement body is rendered without a suffix. -/
theorem c1_trailing_suffix_policy_witness :
    stmtSuffix (Stmt.CallCmd "ls" []) false = "?;"
    ∧ visit_stmt [] 4 (Stmt.CallCmd "ls" []) false
        = visit_stmt [] 4 (Stmt.CallCmd "ls" []) true ++ stmtSuffix (Stmt.CallCmd "ls" []) false
    ∧ (visit_body [] 4 ([Stmt.CallCmd "info" []] ++ [Stmt.Return (Expr.LitNum 0)])).getLast?
        = some (visit_stmt [] 4 (Stmt.Return (Expr.LitNum 0)) true) :=
  ⟨c1_trailing_suffix_policy.2.2.2.1 "ls" [] (by decide),
   c1_trailing_suffix_policy.1 [] 4 (Stmt.CallCmd "ls" []) false,
   c1_trailing_suffix_policy.2.2.2.2 [] 4 [Stmt.CallCmd "info" []] (Stmt.Return (Expr.LitNum 0))⟩

/-- C3: the expression emitter maps the numeric literal `0` to the success
constructor `Ok(())` and every nonzero numeric literal, of either sign, to
the failure constructor `Err(())`. -/
theorem c3_numeric_literal_mapping :
    visit_expr (Expr.LitNum 0) = "Ok(())"
    ∧ (∀ n : Int, n ≠ 0 → visit_expr (Expr.LitNum n) = "Err(())") :=
  ⟨by decide, fun n h => by simp [visit_expr, h]⟩

/-- C3 witness: the mapping at the concrete nonzero literals `-7` and `2`. -/
theorem c3_numeric_literal_mapping_witness :
    visit_expr (Expr.LitNum (-7)) = "Err(())" ∧ visit_expr (Expr.LitNum 2) = "Err(())" :=
  ⟨c3_numeric_literal_mapping.2 (-7) (by decide), c3_numeric_literal_mapping.2 2 (by decide)⟩

/-- C4: on the input of the source's own unit test the scan produces the
template with one positional placeholder per marker and the identifier list
`[a, b, cc]` in order, and `format_str` produces exactly the string the test
asserts. -/
theorem c4_format_str_unit_scenario :
    String.mk (scanFmt ("$\x7ba\x7d aa $\x7bb\x7d bb $\x7bcc\x7d").data).1
        = "\x7b\x7d aa \x7b\x7d bb \x7b\x7d"
    ∧ (scanFmt ("$\x7ba\x7d aa $\x7bb\x7d bb $\x7bcc\x7d").data).2.map String.mk
        = ["a", "b", "cc"]
    ∧ format_str "$\x7ba\x7d aa $\x7bb\x7d bb $\x7bcc\x7d"
        = "\x7b\x7d aa \x7b\x7d bb \x7b\x7d, a, b, cc" := by
  refine ⟨by decide, by decide, by decide⟩

/-- C6 counterexample: the claim that every expression rendering carries no
surrounding statement punctuation fails — the rendering of the routine
invocation `f()` is `f()?;`, which ends with the statement terminator `;`. -/
theorem c6_counterexample_invocation_semicolon :
    visit_expr (Expr.CallFun "f" []) = "f()?;"
    ∧ endsWithChar (visit_expr (Expr.CallFun "f" [])) ';' = true := by
  refine ⟨by decide, by decide⟩

/-- C6 amended: renderings of numeric literals, string literals, variable
references and the unsupported fallback carry no trailing statement
terminator, while a routine invocation renders as the callee applied to the
interpolation-rewritten space-join of its rendered arguments followed by
`?;` — the propagate-on-failure suffix plus a statement terminator —
independently of any statement position. -/
theorem c6_expression_rendering_amended :
    (∀ n : Int, endsWithChar (visit_expr (Expr.LitNum n)) ';' = false)
    ∧ (∀ s : String, endsWithChar (visit_expr (Expr.LitStr s)) ';' = false)
    ∧ (∀ v : String, endsWithChar (visit_expr (Expr.Var v)) ';' = false)
    ∧ (∀ nm payload : String,
        endsWithChar (visit_expr (Expr.Unsupported nm payload)) ';' = false)
    ∧ (∀ f args, visit_expr (Expr.CallFun f args)
        = f ++ "(" ++ format_str (visit_args args) ++ ")?;") := by
  refine ⟨?_, ?_, ?_, ?_, ?_⟩
  · intro n
    by_cases h : n = 0 <;> simp [visit_expr, endsWithChar, h]
  · intro s
    show endsWithChar (("\"" ++ s) ++ "\"") ';' = false
    rw [endsWithChar_append _ _ _ (by decide)]
    decide
  · intro v
    show endsWithChar (("\"$\x7b" ++ v) ++ "\x7d\"") ';' = false
    rw [endsWithChar_append _ _ _ (by decide)]
    decide
  · intro nm payload
    show endsWithChar (((nm ++ "(") ++ payload) ++ ")") ';' = false
    rw [endsWithChar_append _ _ _ (by decide)]
    decide
  · intro f args
    simp [visit_expr, visit_call]

/-- C7: for every name, parameter list and body, the command-routine emission
and the function-routine emission agree on every line after the first, and
their first lines differ only in the return-type name (`CmdResult` in place
of `FunResult`). -/
theorem c7_def_cmd_matches_def_fun (sym_table : List String) (fun_name : String)
    (parameters : List String) (body : List Stmt) :
    ∃ rest,
      visit_def_fun sym_table fun_name parameters body
        = ("fn " ++ fun_name ++ "(" ++ fun_params parameters ++ ") -> FunResult \x7b") :: rest
      ∧ visit_def_cmd sym_table fun_name parameters body
        = ("fn " ++ fun_name ++ "(" ++ fun_params parameters ++ ") -> CmdResult \x7b") :: rest :=
  ⟨visit_body sym_table (0 + INDENT) body ++ ["\x7d", ""], rfl, rfl⟩

/-- C2: three-way classification of a call-command by its name — a reserved
builtin name always renders as a macro-style invocation; any other name
present in the Symbol Set renders as a direct function-style call; any other
name absent from the Symbol Set renders as a `run_cmd!` external-process
invocation carrying the command name and its space-joined rewritten
arguments inside one string. -/
theorem c2_call_classification (sym_table : List String) (ind : Int) (cmd : String)
    (parameters : List Expr) (is_last : Bool) :
    ((cmd = "info" ∨ cmd = "output") →
      visit_call_cmd sym_table ind cmd parameters is_last
        = if parameters.length = 0 then
            indentStr ind ++ (cmd ++ "!") ++ "()"
              ++ (if !is_last then (if cmd = "info" then ";" else "?;") else "")
          else
            indentStr ind ++ (cmd ++ "!") ++ "(" ++ visit_call parameters ++ ")"
              ++ (if !is_last then (if cmd = "info" then ";" else "?;") else ""))
    ∧ (cmd ≠ "info" → cmd ≠ "output" → sym_table.contains cmd = true →
      visit_call_cmd sym_table ind cmd parameters is_last
        = if parameters.length = 0 then
            indentStr ind ++ cmd ++ "()" ++ (if !is_last then "?;" else "")
          else
            indentStr ind ++ cmd ++ "(" ++ visit_call parameters ++ ")"
              ++ (if !is_last then "?;" else ""))
    ∧ (cmd ≠ "info" → cmd ≠ "output" → sym_table.contains cmd = false →
      visit_call_cmd sym_table ind cmd parameters is_last
        = if parameters.length = 0 then
            indentStr ind ++ "run_cmd!(\"" ++ cmd ++ "\")" ++ (if !is_last then "?;" else "")
          else
            indentStr ind ++ "run_cmd!(\"" ++ cmd ++ " " ++ visit_call parameters ++ "\")"
              ++ (if !is_last then "?;" else "")) := by
  refine ⟨?_, ?_, ?_⟩
  · intro h
    have hb : (cmd = "info" ∨ cmd = "output") = True := eq_true h
    simp only [visit_call_cmd, hb, if_true, true_or, if_pos trivial]
  · intro h1 h2 hc
    have hm : cmd ∈ sym_table := by simpa using hc
    simp [visit_call_cmd, h1, h2, hm]
  · intro h1 h2 hc
    have hm : cmd ∉ sym_table := by simpa using hc
    simp [visit_call_cmd, h1, h2, hm]

/-- C2 witness: the classification at concrete calls — the builtin `output`,
a Symbol Set member `foo`, and an external command `ls`. -/
theorem c2_call_classification_witness :
    visit_call_cmd [] 4 "output" [] true
      = (if ([] : List Expr).length = 0 then
          indentStr 4 ++ ("output" ++ "!") ++ "()"
            ++ (if !true then (if "output" = "info" then ";" else "?;") else "")
        else
          indentStr 4 ++ ("output" ++ "!") ++ "(" ++ visit_call [] ++ ")"
            ++ (if !true then (if "output" = "info" then ";" else "?;") else ""))
    ∧ visit_call_cmd ["foo"] 4 "foo" [] false
      = (if ([] : List Expr).length = 0 then
          indentStr 4 ++ "foo" ++ "()" ++ (if !false then "?;" else "")
        else
          indentStr 4 ++ "foo" ++ "(" ++ visit_call [] ++ ")" ++ (if !false then "?;" else ""))
    ∧ visit_call_cmd ["foo"] 4 "ls" [] false
      = (if ([] : List Expr).length = 0 then
          indentStr 4 ++ "run_cmd!(\"" ++ "ls" ++ "\")" ++ (if !false then "?;" else "")
        else
          indentStr 4 ++ "run_cmd!(\"" ++ "ls" ++ " " ++ visit_call [] ++ "\")"
            ++ (if !false then "?;" else "")) :=
  ⟨(c2_call_classification [] 4 "output" [] true).1 (Or.inr rfl),
   (c2_call_classification ["foo"] 4 "foo" [] false).2.1 (by decide) (by decide) (by decide),
   (c2_call_classification ["foo"] 4 "ls" [] false).2.2 (by decide) (by decide) (by decide)⟩

/-- A marker-free character list is scanned to itself with no extracted
identifiers. -/
theorem scanFmt_no_marker (cs : List Char) (h : hasMarker cs = false) :
    scanFmt cs = (cs, []) := by
  induction cs with
  | nil => rfl
  | cons c rest ih =>
    cases rest with
    | nil => rfl
    | cons d rest2 =>
      rw [hasMarker] at h
      by_cases hm : c = '$' ∧ (d :: rest2).head? = some '{'
      · rw [if_pos hm] at h
        exact absurd h (by decide)
      · rw [if_neg hm] at h
        have h1 : ¬(c = '$' ∧ d = '{') := by simpa using hm
        simp [scanFmt, if_neg h1, ih h]

/-- C5: on every input without a `$`-brace marker, the formatter's scan
returns the input verbatim with an empty identifier list, and `format_str`
is the identity. -/
theorem c5_no_marker_identity (s : String) (h : hasMarker s.data = false) :
    scanFmt s.data = (s.data, []) ∧ format_str s = s := by
  have hs := scanFmt_no_marker s.data h
  exact ⟨hs, by simp [format_str, hs]⟩

/-- C5 witness: the formatter at the marker-free input `hello $world`. -/
theorem c5_no_marker_identity_witness :
    scanFmt "hello $world".data = ("hello $world".data, [])
    ∧ format_str "hello $world" = "hello $world" :=
  c5_no_marker_identity "hello $world" (by decide)

/-- If the identifier part contains no closing brace, the inner loop of the
scan consumes everything to the end of the input as the identifier. -/
theorem scanMarker_no_close (rest : List Char) (h : '}' ∉ rest) :
    scanMarker rest = (rest, ([], [])) := by
  induction rest with
  | nil => rfl
  | cons v r ih =>
    have hv : ¬v = '}' := fun e => h (by simp [e])
    have hr : '}' ∉ r := fun m => h (List.mem_cons_of_mem _ m)
    simp only [scanMarker, if_neg hv]
    simp [ih hr]

/-- Appending an unterminated marker after a prefix that the scanner
consumes completely: the combined scan is the prefix's scan with one
placeholder appended to the template and the whole remainder appended as one
last identifier.  Joint statement for the outer scan and the in-marker scan,
by strong induction on the prefix length. -/
theorem closed_append_aux (rest : List Char) (hrest : '}' ∉ rest) :
    ∀ n : Nat,
      (∀ pre : List Char, pre.length ≤ n → closedScan pre = true →
        scanFmt (pre ++ '$' :: '{' :: rest)
          = ((scanFmt pre).1 ++ ['{', '}'], (scanFmt pre).2 ++ [rest]))
      ∧ (∀ ms : List Char, ms.length ≤ n → closedMarker ms = true →
        scanMarker (ms ++ '$' :: '{' :: rest)
          = ((scanMarker ms).1,
             ((scanMarker ms).2.1 ++ ['{', '}'], (scanMarker ms).2.2 ++ [rest]))) := by
  intro n
  induction n with
  | zero =>
    constructor
    · intro pre hlen _
      have hp : pre = [] := List.eq_nil_of_length_eq_zero (Nat.le_zero.mp hlen)
      subst hp
      simp [scanFmt, scanMarker_no_close rest hrest]
    · intro ms hlen hm
      have hp : ms = [] := List.eq_nil_of_length_eq_zero (Nat.le_zero.mp hlen)
      subst hp
      exact absurd hm (by decide)
  | succ k ih =>
    constructor
    · intro pre hlen hc
      cases pre with
      | nil => simp [scanFmt, scanMarker_no_close rest hrest]
      | cons c pre1 =>
        cases pre1 with
        | nil =>
          have h1 : ¬(c = '$' ∧ ('$' : Char) = '{') := by simp
          simp [scanFmt, if_neg h1, scanMarker_no_close rest hrest]
        | cons d pre2 =>
          simp only [List.length_cons] at hlen
          simp only [closedScan] at hc
          by_cases hm : c = '$' ∧ d = '{'
          · rw [if_pos hm] at hc
            have hq := ih.2 pre2 (by omega) hc
            simp only [List.cons_append] at hq ⊢
            simp [scanFmt, if_pos hm, hq]
          · rw [if_neg hm] at hc
            have hp := ih.1 (d :: pre2) (by simp; omega) hc
            simp only [List.cons_append] at hp ⊢
            simp [scanFmt, if_neg hm, hp]
    · intro ms hlen hm
      cases ms with
      | nil => exact absurd hm (by decide)
      | cons v ms2 =>
        simp only [List.length_cons] at hlen
        simp only [closedMarker] at hm
        by_cases hv : v = '}'
        · rw [if_pos hv] at hm
          have hp := ih.1 ms2 (by omega) hm
          simp only [List.cons_append] at hp ⊢
          simp [scanMarker, if_pos hv, hp]
        · rw [if_neg hv] at hm
          have hq := ih.2 ms2 (by omega) hm
          simp only [List.cons_append] at hq ⊢
          simp [scanMarker, if_neg hv, hq]

/-- C9: on every input made of a completely-scanned prefix (all earlier
markers terminated) followed by a marker with no closing brace before the
end of the input, the formatter still terminates with a result: the scan
appends one more placeholder to the prefix's template and extracts the whole
remainder as the last identifier, and `format_str` appends that identifier
after all earlier ones. -/
theorem c9_unterminated_marker (pre rest : List Char) (hpre : closedScan pre = true)
    (hrest : '}' ∉ rest) :
    scanFmt (pre ++ '$' :: '{' :: rest)
      = ((scanFmt pre).1 ++ ['{', '}'], (scanFmt pre).2 ++ [rest])
    ∧ format_str (String.mk (pre ++ '$' :: '{' :: rest))
      = (scanFmt pre).2.foldl (fun acc v => acc ++ ", " ++ String.mk v)
          (String.mk ((scanFmt pre).1 ++ ['{', '}'])) ++ ", " ++ String.mk rest := by
  have hs := (closed_append_aux rest hrest pre.length).1 pre le_rfl hpre
  exact ⟨hs, by simp [format_str, hs, List.foldl_append]⟩

/-- C9 witness: the input `${a} ${b` — an earlier terminated marker followed
by an unterminated one — extracts `b`, the whole remainder, as the last
identifier, after the earlier identifier `a`. -/
theorem c9_unterminated_marker_witness :
    scanFmt (['$', '{', 'a', '}', ' '] ++ '$' :: '{' :: ['b'])
      = ((scanFmt ['$', '{', 'a', '}', ' ']).1 ++ ['{', '}'],
         (scanFmt ['$', '{', 'a', '}', ' ']).2 ++ [['b']])
    ∧ format_str (String.mk (['$', '{', 'a', '}', ' '] ++ '$' :: '{' :: ['b']))
      = (scanFmt ['$', '{', 'a', '}', ' ']).2.foldl (fun acc v => acc ++ ", " ++ String.mk v)
          (String.mk ((scanFmt ['$', '{', 'a', '}', ' ']).1 ++ ['{', '}'])) ++ ", "
          ++ String.mk ['b'] :=
  c9_unterminated_marker ['$', '{', 'a', '}', ' '] ['b'] (by decide) (by decide)

/-- C10: the interpolation rewriting of a call is applied to the entire
space-joined string of rendered arguments — markers inside string-literal
arguments and the quoted markers produced for variable-reference arguments
are all replaced, with the extracted identifiers appended in order — while a
zero-argument call emits a bare `name()` form with no rewriting artifacts. -/
theorem c10_rewriting_of_joined_arguments :
    (∀ parameters, visit_call parameters = format_str (visit_args parameters))
    ∧ (∀ f parameters, parameters ≠ [] →
        visit_expr (Expr.CallFun f parameters)
          = f ++ "(" ++ format_str (visit_args parameters) ++ ")?;")
    ∧ visit_call [Expr.Var "v"] = "\"\x7b\x7d\", v"
    ∧ visit_call [Expr.LitStr "x $\x7ba\x7d y", Expr.Var "b"]
        = "\"x \x7b\x7d y\" \"\x7b\x7d\", a, b"
    ∧ (∀ sym_table ind cmd is_last, cmd ≠ "info" → cmd ≠ "output" →
        sym_table.contains cmd = true →
        visit_call_cmd sym_table ind cmd [] is_last
          = indentStr ind ++ cmd ++ "()" ++ (if !is_last then "?;" else ""))
    ∧ (∀ f, visit_expr (Expr.CallFun f []) = f ++ "()?;") := by
  refine ⟨fun parameters => rfl, ?_, by decide, by decide, ?_, ?_⟩
  · intro f parameters _
    simp [visit_expr, visit_call]
  · intro sym_table ind cmd is_last h1 h2 hc
    have hm : cmd ∈ sym_table := by simpa using hc
    simp [visit_call_cmd, h1, h2, hm]
  · intro f
    simp [visit_expr, visit_args, show format_str "" = "" from rfl,
      show ("(" : String) ++ ")?;" = "()?;" from rfl, String.append_assoc]

/-- C10 witness: the rewriting shape at a concrete one-argument invocation
and the bare form of a concrete zero-argument Symbol Set call. -/
theorem c10_rewriting_of_joined_arguments_witness :
    visit_expr (Expr.CallFun "f" [Expr.LitNum 0])
      = "f" ++ "(" ++ format_str (visit_args [Expr.LitNum 0]) ++ ")?;"
    ∧ visit_call_cmd ["foo"] 4 "foo" [] false
      = indentStr 4 ++ "foo" ++ "()" ++ (if !false then "?;" else "") :=
  ⟨c10_rewriting_of_joined_arguments.2.1 "f" [Expr.LitNum 0] (by simp),
   c10_rewriting_of_joined_arguments.2.2.2.2.1 ["foo"] 4 "foo" false
     (by decide) (by decide) (by decide)⟩

/-- `visit_call_cmd` consults the symbol table only through membership. -/
theorem visit_call_cmd_congr (t1 t2 : List String)
    (h : ∀ s : String, t1.contains s = t2.contains s) (ind : Int) (cmd : String)
    (parameters : List Expr) (is_last : Bool) :
    visit_call_cmd t1 ind cmd parameters is_last
      = visit_call_cmd t2 ind cmd parameters is_last := by
  simp only [visit_call_cmd, h]

/-- `visit_stmt` consults the symbol table only through membership. -/
theorem visit_stmt_congr (t1 t2 : List String)
    (h : ∀ s : String, t1.contains s = t2.contains s) (ind : Int) (stmt : Stmt)
    (is_last : Bool) :
    visit_stmt t1 ind stmt is_last = visit_stmt t2 ind stmt is_last := by
  cases stmt
  case CallCmd cmd parameters => exact visit_call_cmd_congr t1 t2 h ind cmd parameters is_last
  all_goals rfl

/-- `visit_body` consults the symbol table only through membership. -/
theorem visit_body_congr (t1 t2 : List String)
    (h : ∀ s : String, t1.contains s = t2.contains s) (ind : Int) (body : List Stmt) :
    visit_body t1 ind body = visit_body t2 ind body := by
  simp only [visit_body]
  have hf : (fun p : Nat × Stmt => visit_stmt t1 ind p.2 (p.1 = body.length - 1))
      = fun p : Nat × Stmt => visit_stmt t2 ind p.2 (p.1 = body.length - 1) :=
    funext fun p => visit_stmt_congr t1 t2 h ind p.2 _
  rw [hf]

/-- `gen_top` consults the symbol table only through membership. -/
theorem gen_top_congr (t1 t2 : List String)
    (h : ∀ s : String, t1.contains s = t2.contains s) (stmt : Stmt) :
    gen_top t1 stmt = gen_top t2 stmt := by
  cases stmt
  case DefFun n p b =>
    simp only [gen_top, visit_def_fun, visit_body_congr t1 t2 h]
  case DefCmd n p b =>
    simp only [gen_top, visit_def_cmd, visit_body_congr t1 t2 h]
  all_goals rfl

/-- C8: the emission is a deterministic function of the AST and of the
Symbol Set's membership — two symbol-table representations with identical
membership produce line-for-line identical artifacts; in particular two runs
over the same inputs produce byte-identical output. -/
theorem c8_emission_deterministic (stmts : List Stmt) (t1 t2 : List String)
    (h : ∀ s : String, t1.contains s = t2.contains s) :
    gen_code stmts t1 = gen_code stmts t2 := by
  have hb : ∀ l : List Stmt, gen_body t1 l = gen_body t2 l := by
    intro l
    induction l with
    | nil => rfl
    | cons s rest ih => simp only [gen_body, gen_top_congr t1 t2 h, ih]
  simp only [gen_code, hb]

/-- C8 witness: two representations of the same one-element Symbol Set give
the identical artifact for a concrete routine. -/
theorem c8_emission_deterministic_witness :
    gen_code [Stmt.DefFun "g" ["x"] [Stmt.CallCmd "f" [], Stmt.Return (Expr.LitNum 0)]] ["f"]
      = gen_code [Stmt.DefFun "g" ["x"] [Stmt.CallCmd "f" [], Stmt.Return (Expr.LitNum 0)]]
          ["f", "f"] :=
  c8_emission_deterministic _ ["f"] ["f", "f"]
    (by intro s; by_cases hs : s = "f" <;> simp [hs, List.contains_cons])

end RustBackend
